import Mathlib

/-!
Verification of the control-effort residual model
(`src/include/crocoddyl/core/residuals/control.hxx`,
`crocoddyl::ResidualModelControlTpl`).

Shallow embedding conventions:
* the template scalar is instantiated with `Int` (the claims are about exact
  componentwise ring arithmetic, valid for any scalar instantiation);
* Eigen vectors (`VectorXs`) are `List Int`, Eigen matrices (`MatrixXs`) are
  `List (List Int)` (row major);
* a C++ member function that may throw an invalid-argument exception
  (`throw_pretty`) and mutates a data object in place is embedded as a pure
  function returning the (possibly updated) object together with
  `Option CrocoError`; on an error the object is returned unchanged, mirroring
  the fact that in the source every check precedes every write;
* the fallible constructors return `Except CrocoError ResidualModelControl`;
* the external `StateAbstract` collaborator is consumed only through
  `state->get_nv()`, so the state-only constructor takes that `nv` directly;
* the model is passed by value and never returned by the evaluation calls:
  `calc`, `calcDiff` and `createData` are `const`-free on the model in effect
  (they read `nu_`, `nr_`, `uref_` but never write them), which the pure
  embedding makes structural.
-/

namespace Crocoddyl

/-- The single error kind raised by this component (`throw_pretty` with an
"Invalid argument" message in the source). -/
inductive CrocoError where
  | invalidArgument (msg : String) : CrocoError
deriving DecidableEq, Repr

/-- Returns `true` iff an `Except` result is an `InvalidArgument` failure. -/
def isInvalidArgumentE {α : Type} : Except CrocoError α → Bool
  | Except.error (CrocoError.invalidArgument _) => true
  | Except.ok _ => false

/-- Returns `true` iff an error channel holds an `InvalidArgument` failure. -/
def isInvalidArgumentO : Option CrocoError → Bool
  | some (CrocoError.invalidArgument _) => true
  | none => false

/-- Residual data object (`ResidualDataAbstractTpl`): the per-evaluation
buffer holding the residual vector `r` (length `nr`) and the control Jacobian
`Ru` (`nr × nu`, row major). -/
structure ResidualDataAbstract where
  r : List Int
  Ru : List (List Int)
deriving DecidableEq, Repr

/-- Modelled from the spec: the base residual-data allocator (the constructor
of `ResidualDataAbstractTpl`, invoked through `boost::allocate_shared` in
`createData`; that base class is not under `src/`). Per the data model of the
spec, the data object holds `r` sized `nr` and the Jacobian `Ru` sized
`nr × nu`; the spec requires `Ru` to read back as the identity right after
`createData`, which (since `createData` itself writes only the diagonal)
means the base allocator zero-initializes both buffers. -/
def baseResidualData (nr nu : Nat) : ResidualDataAbstract :=
  { r := List.replicate nr 0, Ru := List.replicate nr (List.replicate nu 0) }

/-- Control residual model (`ResidualModelControlTpl`): dimensions `nu`, `nr`
and the reference vector `uref_`, plus the dependence flags passed to the
base-class constructor (`q_dependent`, `v_dependent`, `u_dependent`; every
constructor passes `false, false, true`). -/
structure ResidualModelControl where
  nu : Nat
  nr : Nat
  uref : List Int
  q_dependent : Bool
  v_dependent : Bool
  u_dependent : Bool
deriving DecidableEq, Repr

/-- Constructor taking an explicit reference vector: `nu = nr = uref.size()`;
raises `InvalidArgument` when the resulting `nu` is zero. -/
def mkFromReference (uref : List Int) : Except CrocoError ResidualModelControl :=
  let m : ResidualModelControl :=
    { nu := uref.length, nr := uref.length, uref := uref,
      q_dependent := false, v_dependent := false, u_dependent := true }
  if m.nu = 0 then
    Except.error (CrocoError.invalidArgument
      "it seems to be an autonomous system, if so do not add this residual function")
  else
    Except.ok m

/-- Constructor taking an explicit dimension: `uref_` is the zero vector of
length `nu`; raises `InvalidArgument` when `nu` is zero. -/
def mkFromDim (nu : Nat) : Except CrocoError ResidualModelControl :=
  let m : ResidualModelControl :=
    { nu := nu, nr := nu, uref := List.replicate nu 0,
      q_dependent := false, v_dependent := false, u_dependent := true }
  if m.nu = 0 then
    Except.error (CrocoError.invalidArgument
      "it seems to be an autonomous system, if so do not add this residual function")
  else
    Except.ok m

/-- State-only constructor: `nu = nr = state->get_nv()` (the tangent dimension
of the state, passed here directly), `uref_` the zero vector of that length.
The source performs no validation in this overload: there is no zero check,
so this constructor never fails. -/
def mkFromState (nv : Nat) : Except CrocoError ResidualModelControl :=
  Except.ok
    { nu := nv, nr := nv, uref := List.replicate nv 0,
      q_dependent := false, v_dependent := false, u_dependent := true }

/-- Embeds `calc(data, x, u)`: checks `u.size() == nu_`, then writes
`data->r = u - uref_`. The state `x` is accepted but unused. -/
def ResidualModelControl.calcControl (m : ResidualModelControl)
    (data : ResidualDataAbstract) (_x u : List Int) :
    ResidualDataAbstract × Option CrocoError :=
  if u.length ≠ m.nu then
    (data, some (CrocoError.invalidArgument
      ("u has wrong dimension (it should be " ++ toString m.nu ++ ")")))
  else
    ({ data with r := List.zipWith (fun a b => a - b) u m.uref }, none)

/-- Embeds the state-only overload `calc(data, x)`: `data->r.setZero()` zeroes
the residual vector in place, keeping its current size. No check, no throw. -/
def ResidualModelControl.calcStateOnly (_m : ResidualModelControl)
    (data : ResidualDataAbstract) (_x : List Int) :
    ResidualDataAbstract × Option CrocoError :=
  ({ data with r := List.replicate data.r.length 0 }, none)

/-- Embeds `calcDiff(data, x, u)`: performs no numeric work (the Jacobian is
constant and was populated in `createData`); in a diagnostics build it only
asserts that `Ru` still equals the identity. It never writes to `data`. -/
def ResidualModelControl.calcDiff (_m : ResidualModelControl)
    (data : ResidualDataAbstract) (_x _u : List Int) :
    ResidualDataAbstract × Option CrocoError :=
  (data, none)

/-- One diagonal-entry update: sets index `k` of `row` to `1`, leaving the
row unchanged when `k` is out of range. -/
def setDiagEntry : Nat → List Int → List Int
  | _, [] => []
  | 0, _ :: row => 1 :: row
  | k + 1, a :: row => a :: setDiagEntry k row

/-- Helper for `fillDiag`: processes the rows of a matrix starting at row
index `s`, setting entry `(i, i)` of each row `i` to `1`. -/
def fillDiagAux : Nat → List (List Int) → List (List Int)
  | _, [] => []
  | s, row :: rows => setDiagEntry s row :: fillDiagAux (s + 1) rows

/-- Embeds `mat.diagonal().fill(1)`: sets every in-range diagonal entry
`(i, i)` of `mat` to `1` and touches nothing else. -/
def fillDiag (mat : List (List Int)) : List (List Int) :=
  fillDiagAux 0 mat

/-- The tail of `createData` as it appears in the source: given the freshly
allocated base data object, fill the diagonal of its Jacobian with `1`
(`data->Ru.diagonal().fill((Scalar)1.)`) and return the object. -/
def createDataFrom (base : ResidualDataAbstract) : ResidualDataAbstract :=
  { base with Ru := fillDiag base.Ru }

/-- Embeds `createData(collector)`: allocates a fresh base data object (sized
by `nr`, `nu`; the collector handle is opaque and not interpreted) and fills
the diagonal of its `Ru` with `1`. -/
def ResidualModelControl.createData (m : ResidualModelControl) :
    ResidualDataAbstract :=
  createDataFrom (baseResidualData m.nr m.nu)

/-- Embeds `get_reference()`: returns `uref_`. -/
def ResidualModelControl.get_reference (m : ResidualModelControl) : List Int :=
  m.uref

/-- Embeds `set_reference(reference)`: checks `reference.size() == nu_`, then
replaces `uref_`. -/
def ResidualModelControl.set_reference (m : ResidualModelControl)
    (reference : List Int) : ResidualModelControl × Option CrocoError :=
  if reference.length ≠ m.nu then
    (m, some (CrocoError.invalidArgument
      ("the control reference has wrong dimension (" ++ toString reference.length
        ++ " provided - it should be " ++ toString m.nu ++ ")")))
  else
    ({ m with uref := reference }, none)

/-- Runs `calcDiff` `k` times in sequence on the same data object, threading
the data through. -/
def calcDiffRun (m : ResidualModelControl) (x u : List Int) :
    Nat → ResidualDataAbstract → ResidualDataAbstract
  | 0, d => d
  | k + 1, d => calcDiffRun m x u k (m.calcDiff d x u).1

/-- The `n × n` identity matrix, row major. -/
def idMat (n : Nat) : List (List Int) :=
  (List.range n).map (fun i => (List.range n).map (fun j => if i = j then 1 else 0))

/-- Entry `(i, j)` of a row-major matrix, defaulting to `0` out of range. -/
def entry (mat : List (List Int)) (i j : Nat) : Int :=
  (mat.getD i []).getD j 0

/-- Concrete fixture: a model with `nu = nr = 3` and reference `[1, 2, 3]`,
as produced by the explicit-reference constructor. -/
def mA : ResidualModelControl :=
  { nu := 3, nr := 3, uref := [1, 2, 3],
    q_dependent := false, v_dependent := false, u_dependent := true }

/-- Concrete fixture: a model with `nu = nr = 2` and reference `[4, 5]`. -/
def mB : ResidualModelControl :=
  { nu := 2, nr := 2, uref := [4, 5],
    q_dependent := false, v_dependent := false, u_dependent := true }

/-- Concrete fixture: the model produced by `mkFromDim 4`. -/
def mD4 : ResidualModelControl :=
  { nu := 4, nr := 4, uref := [0, 0, 0, 0],
    q_dependent := false, v_dependent := false, u_dependent := true }

/-- Concrete fixture: a data object for `mA` with nonzero prior residual. -/
def dA : ResidualDataAbstract :=
  { r := [7, 8, 9], Ru := [[0, 0, 0], [0, 0, 0], [0, 0, 0]] }

/-- Concrete fixture: a square base data object with nonzero garbage in the
Jacobian buffer, used to exercise the diagonal fill. -/
def base0 : ResidualDataAbstract :=
  { r := [0, 0], Ru := [[5, 7], [8, 9]] }

/-! ### Helper lemmas about the list and matrix primitives -/

theorem setDiagEntry_nil (k : Nat) : setDiagEntry k [] = [] := by
  cases k <;> rfl

theorem length_setDiagEntry (k : Nat) (row : List Int) :
    (setDiagEntry k row).length = row.length := by
  induction row generalizing k with
  | nil => rw [setDiagEntry_nil]
  | cons a t ih =>
    cases k with
    | zero => rfl
    | succ k => simpa [setDiagEntry] using ih k

theorem getD_setDiagEntry_ne (k j : Nat) (row : List Int) (d : Int) (h : j ≠ k) :
    (setDiagEntry k row).getD j d = row.getD j d := by
  induction row generalizing k j with
  | nil => rw [setDiagEntry_nil]
  | cons a t ih =>
    cases k with
    | zero =>
      cases j with
      | zero => exact absurd rfl h
      | succ j => simp [setDiagEntry]
    | succ k =>
      cases j with
      | zero => rfl
      | succ j =>
        simpa [setDiagEntry] using ih k j (fun hc => h (by rw [hc]))

theorem getD_setDiagEntry_self (k : Nat) (row : List Int) (d : Int)
    (h : k < row.length) : (setDiagEntry k row).getD k d = 1 := by
  induction row generalizing k with
  | nil => simp at h
  | cons a t ih =>
    cases k with
    | zero => rfl
    | succ k => simpa [setDiagEntry] using ih k (by simpa using h)

theorem length_fillDiagAux (s : Nat) (rows : List (List Int)) :
    (fillDiagAux s rows).length = rows.length := by
  induction rows generalizing s with
  | nil => rfl
  | cons row t ih => simpa [fillDiagAux] using ih (s + 1)

theorem getD_fillDiagAux (rows : List (List Int)) (s i : Nat) :
    (fillDiagAux s rows).getD i [] = setDiagEntry (s + i) (rows.getD i []) := by
  induction rows generalizing s i with
  | nil => simp [fillDiagAux, setDiagEntry_nil]
  | cons row t ih =>
    cases i with
    | zero => simp [fillDiagAux]
    | succ i =>
      have e : s + 1 + i = s + (i + 1) := by omega
      simpa [fillDiagAux, e] using ih (s + 1) i

theorem getD_fillDiag (mat : List (List Int)) (i : Nat) :
    (fillDiag mat).getD i [] = setDiagEntry i (mat.getD i []) := by
  simpa [fillDiag] using getD_fillDiagAux mat 0 i

theorem length_fillDiag (mat : List (List Int)) :
    (fillDiag mat).length = mat.length := by
  simpa [fillDiag] using length_fillDiagAux 0 mat

theorem getD_replicate_eval {α : Type} (n i : Nat) (a d : α) :
    (List.replicate n a).getD i d = if i < n then a else d := by
  induction n generalizing i with
  | zero => simp
  | succ n ih =>
    cases i with
    | zero => simp [List.replicate]
    | succ i => simpa [List.replicate, Nat.succ_lt_succ_iff] using ih i

theorem getD_zipWith_sub (u v : List Int) (i : Nat) (hi : i < u.length)
    (hl : u.length = v.length) :
    (List.zipWith (fun a b => a - b) u v).getD i 0 = u.getD i 0 - v.getD i 0 := by
  induction u generalizing v i with
  | nil => simp at hi
  | cons a t ih =>
    cases v with
    | nil => simp at hl
    | cons b s =>
      cases i with
      | zero => simp
      | succ i => simpa using ih s i (by simpa using hi) (by simpa using hl)

theorem getD_ext {α : Type} (d : α) (a b : List α) (hlen : a.length = b.length)
    (h : ∀ j, j < a.length → a.getD j d = b.getD j d) : a = b := by
  apply List.ext_getElem hlen
  intro j h1 h2
  have hj := h j h1
  rwa [List.getD_eq_getElem _ _ h1, List.getD_eq_getElem _ _ h2] at hj

theorem getD_range_map (f : Nat → Int) (n j : Nat) (hj : j < n) :
    ((List.range n).map f).getD j 0 = f j := by
  rw [List.getD_eq_getElem _ _ (by simpa using hj)]
  simp

theorem getD_idMat (n i : Nat) (hi : i < n) :
    (idMat n).getD i [] = (List.range n).map (fun j => if i = j then 1 else 0) := by
  rw [idMat, List.getD_eq_getElem _ _ (by simpa using hi)]
  simp

theorem setDiagEntry_replicate_zero (n i : Nat) (hi : i < n) :
    setDiagEntry i (List.replicate n (0 : Int)) =
      (List.range n).map (fun j => if i = j then 1 else 0) := by
  apply getD_ext 0
  · simp [length_setDiagEntry]
  · intro j hj1
    have hj : j < n := by simpa [length_setDiagEntry] using hj1
    rw [getD_range_map _ n j hj]
    by_cases hij : j = i
    · subst hij
      rw [getD_setDiagEntry_self _ _ _ (by simpa using hj)]
      simp
    · rw [getD_setDiagEntry_ne _ _ _ _ hij, getD_replicate_eval]
      have hij2 : i ≠ j := fun hc => hij hc.symm
      simp [hj, hij2]

theorem fillDiag_replicate_zero (n : Nat) :
    fillDiag (List.replicate n (List.replicate n (0 : Int))) = idMat n := by
  apply getD_ext ([] : List Int)
  · simp [length_fillDiag, idMat]
  · intro i hi1
    have hi : i < n := by simpa [length_fillDiag] using hi1
    rw [getD_fillDiag, getD_idMat n i hi, getD_replicate_eval]
    simp only [hi, if_true]
    exact setDiagEntry_replicate_zero n i hi

theorem calcDiffRun_eq (m : ResidualModelControl) (x u : List Int) (k : Nat)
    (d : ResidualDataAbstract) : calcDiffRun m x u k d = d := by
  induction k generalizing d with
  | zero => rfl
  | succ k ih => simpa [calcDiffRun, ResidualModelControl.calcDiff] using ih d

theorem calcControl_ok (m : ResidualModelControl) (data : ResidualDataAbstract)
    (x u : List Int) (hu : u.length = m.nu) :
    m.calcControl data x u =
      ({ data with r := List.zipWith (fun a b => a - b) u m.uref }, none) := by
  simp [ResidualModelControl.calcControl, hu]

theorem entry_createDataFrom_ne (base : ResidualDataAbstract) (i j : Nat)
    (h : i ≠ j) : entry (createDataFrom base).Ru i j = entry base.Ru i j := by
  show entry (fillDiag base.Ru) i j = entry base.Ru i j
  unfold entry
  rw [getD_fillDiag]
  exact getD_setDiagEntry_ne i j _ 0 (Ne.symm h)

theorem entry_createDataFrom_diag (base : ResidualDataAbstract) (i : Nat)
    (h : i < (base.Ru.getD i []).length) :
    entry (createDataFrom base).Ru i i = 1 := by
  show entry (fillDiag base.Ru) i i = 1
  unfold entry
  rw [getD_fillDiag]
  exact getD_setDiagEntry_self i _ 0 h

theorem entry_idMat (n i j : Nat) (hi : i < n) (hj : j < n) :
    entry (idMat n) i j = if i = j then 1 else 0 := by
  unfold entry
  rw [getD_idMat n i hi, getD_range_map _ n j hj]

/-! ### Claim theorems -/

/-- C1: for every model whose reference vector has length `nu > 0` and every
control `u` of length `nu`, `calc(data, x, u)` succeeds and sets `data.r` to
the componentwise difference `u - u_ref`. -/
theorem calc_computes_control_residual (m : ResidualModelControl)
    (data : ResidualDataAbstract) (x u : List Int)
    (hinv : m.uref.length = m.nu) (_hpos : 0 < m.nu) (hu : u.length = m.nu) :
    (m.calcControl data x u).2 = none ∧
    (m.calcControl data x u).1.r.length = m.nu ∧
    ∀ i, i < m.nu →
      (m.calcControl data x u).1.r.getD i 0 = u.getD i 0 - m.uref.getD i 0 := by
  rw [calcControl_ok m data x u hu]
  refine ⟨rfl, ?_, ?_⟩
  · simp [hu, hinv]
  · intro i hi
    exact getD_zipWith_sub u m.uref i (by omega) (by omega)

/-- Witness for C1: the concrete scenario `nu = 3`, `u_ref = [1, 2, 3]`,
`u = [0, 0, 0]`, where the residual reads `-2` at index `1`. -/
theorem calc_computes_control_residual_witness :
    mA.uref.length = mA.nu ∧ 0 < mA.nu ∧ [(0 : Int), 0, 0].length = mA.nu ∧
    (mA.calcControl dA [9] [0, 0, 0]).2 = none ∧
    (mA.calcControl dA [9] [0, 0, 0]).1.r.getD 1 0 = -2 := by
  have h := calc_computes_control_residual mA dA [9] [0, 0, 0]
    (by decide) (by decide) (by decide)
  refine ⟨by decide, by decide, by decide, h.1, ?_⟩
  have h2 := h.2.2 1 (by decide)
  rw [h2]
  decide

/-- C2 counterexample: the state-only constructor performs no zero check;
with tangent dimension `nv = 0` it succeeds (producing a model with
`nu = 0`) instead of failing with `InvalidArgument`. -/
theorem stateOnly_construction_zero_succeeds :
    mkFromState 0 = Except.ok
      { nu := 0, nr := 0, uref := [],
        q_dependent := false, v_dependent := false, u_dependent := true } ∧
    isInvalidArgumentE (mkFromState 0) = false :=
  ⟨rfl, rfl⟩

/-- C2 amended: construction with resulting `nu = 0` fails with
`InvalidArgument` for the explicit-reference and explicit-dimension forms;
the state-only form performs no validation and always succeeds, even when
the tangent dimension of the state is zero. -/
theorem construction_zero_validation_amended :
    (∀ uref : List Int, uref.length = 0 →
      isInvalidArgumentE (mkFromReference uref) = true) ∧
    isInvalidArgumentE (mkFromDim 0) = true ∧
    ∀ nv : Nat, isInvalidArgumentE (mkFromState nv) = false := by
  refine ⟨?_, by decide, fun nv => rfl⟩
  intro uref h
  simp [mkFromReference, isInvalidArgumentE, h]

/-- Witness for C2 (amended form), at the empty reference vector and at
tangent dimension zero. -/
theorem construction_zero_validation_amended_witness :
    ([] : List Int).length = 0 ∧
    isInvalidArgumentE (mkFromReference []) = true ∧
    isInvalidArgumentE (mkFromState 0) = false := by
  refine ⟨rfl, ?_, ?_⟩
  · exact construction_zero_validation_amended.1 [] rfl
  · exact construction_zero_validation_amended.2.2 0

/-- C3: for every model with `nr = nu` (as every constructor establishes),
the Jacobian `Ru` of the data object returned by `createData` equals the
`nu × nu` identity matrix, and it still equals the identity after any number
of subsequent `calcDiff` calls on that data object. -/
theorem createData_Ru_identity_stable (m : ResidualModelControl)
    (hnr : m.nr = m.nu) :
    m.createData.Ru = idMat m.nu ∧
    ∀ (k : Nat) (x u : List Int),
      (calcDiffRun m x u k m.createData).Ru = idMat m.nu := by
  have hRu : m.createData.Ru = idMat m.nu := by
    show fillDiag (List.replicate m.nr (List.replicate m.nu 0)) = idMat m.nu
    rw [hnr]
    exact fillDiag_replicate_zero m.nu
  exact ⟨hRu, fun k x u => by rw [calcDiffRun_eq]; exact hRu⟩

/-- Witness for C3: a concrete `2 × 2` model, with five `calcDiff` calls. -/
theorem createData_Ru_identity_stable_witness :
    mB.nr = mB.nu ∧
    mB.createData.Ru = idMat mB.nu ∧
    (calcDiffRun mB [1] [2, 3] 5 mB.createData).Ru = idMat mB.nu := by
  refine ⟨rfl, ?_, ?_⟩
  · exact (createData_Ru_identity_stable mB rfl).1
  · exact (createData_Ru_identity_stable mB rfl).2 5 [1] [2, 3]

/-- C4: when the length of `u` differs from `nu`, `calc(data, x, u)` fails
with `InvalidArgument` and returns the data object exactly as it was: the
dimension check precedes any write. -/
theorem calc_wrong_dimension_rejected (m : ResidualModelControl)
    (data : ResidualDataAbstract) (x u : List Int) (h : u.length ≠ m.nu) :
    (m.calcControl data x u).1 = data ∧
    isInvalidArgumentO (m.calcControl data x u).2 = true := by
  simp [ResidualModelControl.calcControl, h, isInvalidArgumentO]

/-- Witness for C4: a length-1 control against the `nu = 3` model. -/
theorem calc_wrong_dimension_rejected_witness :
    ([(1 : Int)].length ≠ mA.nu) ∧
    (mA.calcControl dA [9] [1]).1 = dA ∧
    isInvalidArgumentO (mA.calcControl dA [9] [1]).2 = true := by
  have h := calc_wrong_dimension_rejected mA dA [9] [1] (by decide)
  exact ⟨by decide, h.1, h.2⟩

/-- C5: the state-only `calc(data, x)` overload raises no error and sets
`data.r` to the zero vector of length `nu`, for every data object of the
model (its residual buffer has length `nu`), regardless of the prior
contents of `data.r`. -/
theorem stateOnly_calc_zeroes_residual (m : ResidualModelControl)
    (data : ResidualDataAbstract) (x : List Int) (hr : data.r.length = m.nu) :
    (m.calcStateOnly data x).2 = none ∧
    (m.calcStateOnly data x).1.r = List.replicate m.nu 0 := by
  refine ⟨rfl, ?_⟩
  show List.replicate data.r.length 0 = List.replicate m.nu 0
  rw [hr]

/-- Witness for C5: the `nu = 3` model with prior residual `[7, 8, 9]`. -/
theorem stateOnly_calc_zeroes_residual_witness :
    dA.r.length = mA.nu ∧
    (mA.calcStateOnly dA [9]).2 = none ∧
    (mA.calcStateOnly dA [9]).1.r = [0, 0, 0] := by
  have h := stateOnly_calc_zeroes_residual mA dA [9] (by decide)
  refine ⟨by decide, h.1, ?_⟩
  rw [h.2]
  decide

/-- C6: `set_reference` with a vector of length `nu` succeeds, replaces the
reference, and every subsequent `calc` uses the new reference (the residual
reads `u - v` componentwise); with a vector of any other length it fails
with `InvalidArgument` and leaves the model, in particular `u_ref`,
unchanged. -/
theorem set_reference_contract (m : ResidualModelControl) (v : List Int) :
    (v.length = m.nu →
      (m.set_reference v).2 = none ∧
      (m.set_reference v).1.uref = v ∧
      ∀ (data : ResidualDataAbstract) (x u : List Int), u.length = m.nu →
        ((m.set_reference v).1.calcControl data x u).2 = none ∧
        ∀ i, i < m.nu →
          ((m.set_reference v).1.calcControl data x u).1.r.getD i 0 =
            u.getD i 0 - v.getD i 0) ∧
    (v.length ≠ m.nu →
      (m.set_reference v).1 = m ∧
      isInvalidArgumentO (m.set_reference v).2 = true) := by
  constructor
  · intro hv
    have hset : m.set_reference v = ({ m with uref := v }, none) := by
      simp [ResidualModelControl.set_reference, hv]
    rw [hset]
    refine ⟨rfl, rfl, ?_⟩
    intro data x u hu
    have hu2 : u.length = ({ m with uref := v } : ResidualModelControl).nu := hu
    rw [calcControl_ok ({ m with uref := v }) data x u hu2]
    refine ⟨rfl, ?_⟩
    intro i hi
    exact getD_zipWith_sub u v i (by omega) (by omega)
  · intro hv
    simp [ResidualModelControl.set_reference, hv, isInvalidArgumentO]

/-- Witness for C6: replacing `[1, 2, 3]` by `[4, 5, 6]` succeeds and the
next residual reads `10 - 4 = 6`; a length-1 vector is rejected and the
model is unchanged. -/
theorem set_reference_contract_witness :
    ([(4 : Int), 5, 6].length = mA.nu) ∧
    (mA.set_reference [4, 5, 6]).2 = none ∧
    (mA.set_reference [4, 5, 6]).1.uref = [4, 5, 6] ∧
    ((mA.set_reference [4, 5, 6]).1.calcControl dA [9] [10, 10, 10]).1.r.getD 0 0 = 6 ∧
    ([(1 : Int)].length ≠ mA.nu) ∧
    (mA.set_reference [1]).1 = mA ∧
    isInvalidArgumentO (mA.set_reference [1]).2 = true := by
  have hg := (set_reference_contract mA [4, 5, 6]).1 (by decide)
  have hb := (set_reference_contract mA [1]).2 (by decide)
  refine ⟨by decide, hg.1, hg.2.1, ?_, by decide, hb.1, hb.2⟩
  have h := (hg.2.2 dA [9] [10, 10, 10] (by decide)).2 0 (by decide)
  rw [h]
  decide

/-- C7: the result of `calc(data, x, u)` does not depend on the state
argument: two calls differing only in the state return identical results
(same residual, same error channel). -/
theorem calc_state_independent (m : ResidualModelControl)
    (data : ResidualDataAbstract) (x1 x2 u : List Int) :
    m.calcControl data x1 u = m.calcControl data x2 u := rfl

/-- C8: constructing with an explicit dimension `nu > 0` and no reference
vector succeeds, and the reference getter reads back the zero vector of
length `nu`. -/
theorem explicit_dim_zero_reference (n : Nat) (h : 0 < n) :
    isInvalidArgumentE (mkFromDim n) = false ∧
    ∀ m, mkFromDim n = Except.ok m → m.get_reference = List.replicate n 0 := by
  have hne : ¬ n = 0 := by omega
  constructor
  · simp [mkFromDim, isInvalidArgumentE, hne]
  · intro m hm
    simp [mkFromDim, hne] at hm
    rw [← hm]
    rfl

/-- Witness for C8: `nu = 4` reads back as `[0, 0, 0, 0]`. -/
theorem explicit_dim_zero_reference_witness :
    0 < 4 ∧
    isInvalidArgumentE (mkFromDim 4) = false ∧
    mD4.get_reference = [0, 0, 0, 0] := by
  have h := explicit_dim_zero_reference 4 (by decide)
  refine ⟨by decide, h.1, ?_⟩
  have h2 := h.2 mD4 (by rfl)
  rw [h2]
  decide

/-- C9: a successful `calc(data, x, u)` call mutates only `data.r`: the
Jacobian `Ru` of the data object is unchanged and no error is raised. The
model fields (`nu`, `nr`, `u_ref`) are read-only in `calcControl`, which
takes the model immutably and does not return an updated model. -/
theorem calc_frame_only_r (m : ResidualModelControl)
    (data : ResidualDataAbstract) (x u : List Int) (hu : u.length = m.nu) :
    (m.calcControl data x u).1.Ru = data.Ru ∧
    (m.calcControl data x u).2 = none := by
  rw [calcControl_ok m data x u hu]
  exact ⟨rfl, rfl⟩

/-- Witness for C9: the `nu = 3` model with its data object `dA`. -/
theorem calc_frame_only_r_witness :
    ([(0 : Int), 0, 0].length = mA.nu) ∧
    (mA.calcControl dA [9] [0, 0, 0]).1.Ru = dA.Ru ∧
    (mA.calcControl dA [9] [0, 0, 0]).2 = none := by
  have h := calc_frame_only_r mA dA [9] [0, 0, 0] (by decide)
  exact ⟨by decide, h.1, h.2⟩

/-- C10: the diagonal fill performed by `createData` writes only the
diagonal entries of the Jacobian buffer of the freshly allocated base data
object, setting them to `1`: every off-diagonal entry is exactly what the
base construction produced, so the resulting `Ru` equals the identity matrix
only if the base construction zero-initialized the buffer. Stated over
`createDataFrom`, the source tail of `createData`, acting on an arbitrary
base object of shape `n × n`. -/
theorem createData_writes_only_diagonal (base : ResidualDataAbstract)
    (n : Nat) (_hlen : base.Ru.length = n)
    (hrow : ∀ i, i < n → (base.Ru.getD i []).length = n) :
    (∀ i j, i ≠ j → entry (createDataFrom base).Ru i j = entry base.Ru i j) ∧
    (∀ i, i < n → entry (createDataFrom base).Ru i i = 1) ∧
    ((createDataFrom base).Ru = idMat n →
      ∀ i j, i < n → j < n → i ≠ j → entry base.Ru i j = 0) := by
  refine ⟨fun i j h => entry_createDataFrom_ne base i j h, ?_, ?_⟩
  · intro i hi
    exact entry_createDataFrom_diag base i (by rw [hrow i hi]; exact hi)
  · intro hid i j hi hj hij
    have h1 : entry base.Ru i j = entry (createDataFrom base).Ru i j :=
      (entry_createDataFrom_ne base i j hij).symm
    rw [h1, hid, entry_idMat n i j hi hj]
    simp [hij]

/-- Witness for C10: a `2 × 2` base buffer holding garbage `[[5, 7], [8, 9]]`;
the fill keeps the off-diagonal `7` and writes `1` on the diagonal. -/
theorem createData_writes_only_diagonal_witness :
    base0.Ru.length = 2 ∧
    entry (createDataFrom base0).Ru 0 1 = 7 ∧
    entry (createDataFrom base0).Ru 0 0 = 1 ∧
    entry (createDataFrom base0).Ru 1 1 = 1 := by
  have h := createData_writes_only_diagonal base0 2 (by decide) (by decide)
  refine ⟨by decide, ?_, ?_, ?_⟩
  · have h2 := h.1 0 1 (by decide)
    rw [h2]
    decide
  · exact h.2.1 0 (by decide)
  · exact h.2.1 1 (by decide)

end Crocoddyl
